import Mathlib

/-!
# Verification of the react-phoenix connection/channel management core

Shallow embedding of the connection manager (`core/connection` /
`PhoenixConnectionManager`), the channel manager (`core/channels` /
`PhoenixChannelManager`), the event manager (`core/events` /
`PhoenixEventManager` over `eventUtils.createEventEmitter`) and the
legacy facade client (`phoenix-client` / `PhoenixClient`).

JS `Map`s are modelled as association lists with in-place update
(`alSet`), `Set`s of callbacks as duplicate-free lists with
add-if-absent, callbacks/handlers as `Nat` identities, asynchronous
transport acknowledgments as explicit outcome parameters, timers as
`(delay, action)` pairs collected in the result, and wall-clock
instants (`Date.now()` / `new Date()`) as `Nat` arguments.
-/

/-- Character-list equality test used for the substring check
(`String.prototype.includes`). -/
def charsMatch : List Char → List Char → Bool
  | [], _ => true
  | _ :: _, [] => false
  | a :: as, b :: bs => a = b && charsMatch as bs

/-- Does `hay` contain `needle` as a contiguous run? -/
def subChars (needle : List Char) : List Char → Bool
  | [] => needle.isEmpty
  | h :: t => charsMatch needle (h :: t) || subChars needle t

/-- JS `hay.includes(needle)`. -/
def containsSub (hay needle : String) : Bool :=
  subChars needle.toList hay.toList

/-- Models `Map.prototype.get`. -/
def alGet {α : Type} (k : String) : List (String × α) → Option α
  | [] => none
  | (k1, v) :: t => if k1 = k then some v else alGet k t

/-- Models `Map.prototype.set`: update in place, preserving insertion order;
append when the key is new. -/
def alSet {α : Type} (k : String) (v : α) : List (String × α) → List (String × α)
  | [] => [(k, v)]
  | (k1, v1) :: t => if k1 = k then (k1, v) :: t else (k1, v1) :: alSet k v t

/-- Models `Map.prototype.delete`. -/
def alDel {α : Type} (k : String) : List (String × α) → List (String × α)
  | [] => []
  | (k1, v1) :: t => if k1 = k then t else (k1, v1) :: alDel k t

/-- In-place mutation of the value object stored under a key
(JS object references: mutating `map.get(k)` updates the map);
no-op when the key is absent. -/
def alUpdate {α : Type} (k : String) (f : α → α) : List (String × α) → List (String × α)
  | [] => []
  | (k1, v1) :: t => if k1 = k then (k1, f v1) :: t else (k1, v1) :: alUpdate k f t

/-- JS `a || b` over nullable strings: empty strings are falsy. -/
def strOr (a b : Option String) : Option String :=
  match a with
  | some s => if s = "" then b else some s
  | none => b

namespace Chan

/-- Models `ChannelState.status` (channels.ts). -/
inductive CStatus where
  | disconnected
  | joining
  | joined
  | errorSt
  deriving DecidableEq, Repr

/-- The Phoenix transport channel's own `state` field. -/
inductive PhxState where
  | closed
  | joining
  | joined
  | errored
  | leaving
  deriving DecidableEq, Repr

/-- Models `ChannelState` (channels.ts); the `error` field is tracked as a
presence flag. -/
structure ChannelState where
  status : CStatus
  hasError : Bool
  lastJoined : Option Nat
  lastLeft : Option Nat
  messageCount : Nat
  deriving DecidableEq, Repr

/-- A Phoenix transport channel object: identity, its own state,
the `_channelManagerHandlers` guard flag, how many times
error/close handlers were actually installed, and its `on`-bindings
(event name, callback identity). -/
structure PChannel where
  id : Nat
  phxState : PhxState
  handlersInstalled : Bool
  installCount : Nat
  bindings : List (String × Nat)
  deriving DecidableEq, Repr

/-- Models `PhoenixChannelManager` fields (channels.ts). -/
structure Mgr where
  hasSocket : Bool
  channels : List (String × PChannel)
  channelStates : List (String × ChannelState)
  messageListeners : List (String × List (String × List Nat))
  nextId : Nat
  deriving DecidableEq, Repr

/-- Models `maxChannels = 50` (channels.ts). -/
def maxChannels : Nat := 50

/-- Models `maxListenersPerEvent = 10` (channels.ts). -/
def maxListenersPerEvent : Nat := 10

/-- Error codes created through `errorUtils.createError` in channels.ts. -/
inductive Err where
  | socketNotConnected
  | maxChannelsExceeded
  | joinError
  | joinTimeout
  | channelNotFound
  | messageError
  | messageTimeout
  deriving DecidableEq, Repr

/-- Lifecycle events emitted through `phoenixEventManager`. -/
inductive Evt where
  | channelJoin (topic : String)
  | channelLeave (topic : String)
  | channelError (topic : String)
  deriving DecidableEq, Repr

/-- Models `updateChannelState`: read-or-default, merge, set back. -/
def updateChannelState (topic : String) (f : ChannelState → ChannelState)
    (l : List (String × ChannelState)) : List (String × ChannelState) :=
  let cur := (alGet topic l).getD
    { status := .disconnected, hasError := false, lastJoined := none,
      lastLeft := none, messageCount := 0 }
  alSet topic (f cur) l

/-- Models `setupChannelHandlers`: installs the error/close handlers unless the
`_channelManagerHandlers` flag is already set. -/
def setupChannelHandlers (ch : PChannel) : PChannel :=
  if ch.handlersInstalled then ch
  else { ch with handlersInstalled := true, installCount := ch.installCount + 1 }

/-- A fresh channel object as returned by `socket.channel(topic, params)`. -/
def mkChannel (cid : Nat) : PChannel :=
  { id := cid, phxState := .closed, handlersInstalled := false,
    installCount := 0, bindings := [] }

/-- Result of the synchronous prefix of `joinChannel`. -/
inductive StartResult where
  | failed (e : Err)
  | already (cid : Nat)
  | started (m : Mgr) (cid : Nat)
  deriving DecidableEq, Repr

/-- The synchronous prefix of `joinChannel` (channels.ts, lines 60-91):
socket check, capacity check, idempotency check, mark `joining`,
create-or-reuse the channel object, register it, install handlers,
initiate `channel.join()`.  Everything up to the first `await`. -/
def joinStart (topic : String) (m : Mgr) : StartResult :=
  if m.hasSocket = false then .failed .socketNotConnected
  else if maxChannels ≤ m.channels.length then .failed .maxChannelsExceeded
  else
    match alGet topic m.channels with
    | some ch =>
      if ch.phxState = .joined then .already ch.id
      else
        let states := updateChannelState topic (fun s => { s with status := .joining }) m.channelStates
        let ch1 := { setupChannelHandlers ch with phxState := .joining }
        .started { m with channelStates := states, channels := alSet topic ch1 m.channels } ch.id
    | none =>
      let states := updateChannelState topic (fun s => { s with status := .joining }) m.channelStates
      let ch1 := { setupChannelHandlers (mkChannel m.nextId) with phxState := .joining }
      .started { m with channelStates := states,
                        channels := alSet topic ch1 m.channels,
                        nextId := m.nextId + 1 } m.nextId

/-- Transport acknowledgment of `channel.join()`. -/
inductive JoinAck where
  | okA
  | errA
  | timeoutA
  deriving DecidableEq, Repr

/-- Result of a full `joinChannel` call: resulting manager, resolved
channel handle or rejection, emitted lifecycle events. -/
structure JoinOut where
  mgr : Mgr
  res : Except Err Nat
  events : List Evt
  deriving Repr

/-- Models `joinChannel` (channels.ts): synchronous prefix, then settle on the
transport's join acknowledgment (`performChannelJoin` plus the `catch`
block of `joinChannel`). -/
def joinChannel (topic : String) (now : Nat) (ack : JoinAck) (m : Mgr) : JoinOut :=
  match joinStart topic m with
  | .failed e => ⟨m, .error e, []⟩
  | .already cid => ⟨m, .ok cid, []⟩
  | .started m1 cid =>
    match ack with
    | .okA =>
      ⟨{ m1 with
          channels := alUpdate topic (fun c => { c with phxState := .joined }) m1.channels,
          channelStates := updateChannelState topic
            (fun s => { s with status := .joined, lastJoined := some now, hasError := false })
            m1.channelStates },
        .ok cid, [.channelJoin topic]⟩
    | .errA =>
      ⟨{ m1 with
          channels := alUpdate topic (fun c => { c with phxState := .errored }) m1.channels,
          channelStates := updateChannelState topic
            (fun s => { s with status := .errorSt, hasError := true }) m1.channelStates },
        .error .joinError, [.channelError topic]⟩
    | .timeoutA =>
      ⟨{ m1 with
          channelStates := updateChannelState topic
            (fun s => { s with status := .errorSt, hasError := true }) m1.channelStates },
        .error .joinTimeout, [.channelError topic]⟩

/-- Transport acknowledgment of `channel.push(event, payload)`. -/
inductive SendAck where
  | okA (resp : Nat)
  | errA
  | timeoutA
  deriving DecidableEq, Repr

/-- Models `sendMessage` (channels.ts, lines 139-159). -/
def sendMessage (topic event : String) (ack : SendAck) (m : Mgr) :
    Mgr × Except Err Nat :=
  match alGet topic m.channels with
  | none => (m, .error .channelNotFound)
  | some _ =>
    match ack with
    | .okA r =>
      ({ m with channelStates :=
          (alUpdate topic (fun s => { s with messageCount := s.messageCount + 1 })
            m.channelStates) },
        .ok r)
    | .errA => (m, .error .messageError)
    | .timeoutA => (m, .error .messageTimeout)

/-- Models `leaveChannel` (channels.ts). -/
def leaveChannel (topic : String) (now : Nat) (m : Mgr) : Mgr × List Evt :=
  match alGet topic m.channels with
  | none => (m, [])
  | some _ =>
    ({ m with
        channels := alDel topic m.channels,
        messageListeners := alDel topic m.messageListeners,
        channelStates := updateChannelState topic
          (fun s => { s with status := .disconnected, lastLeft := some now })
          m.channelStates },
      [.channelLeave topic])

/-- Models `onMessage` (channels.ts, lines 164-200): materialize the per-topic
and per-event registry entries, then enforce the per-event cap, then
de-duplicate; only a genuinely new callback reaches `channel.on`. -/
def onMessage (topic event : String) (cb : Nat) (m : Mgr) : Mgr :=
  match alGet topic m.channels with
  | none => m
  | some ch =>
    let tl := (alGet topic m.messageListeners).getD []
    let el := (alGet event tl).getD []
    let base := { m with messageListeners := alSet topic (alSet event el tl) m.messageListeners }
    if maxListenersPerEvent ≤ el.length then base
    else if cb ∈ el then base
    else
      { base with
          messageListeners := alSet topic (alSet event (el ++ [cb]) tl) base.messageListeners,
          channels := alSet topic ({ ch with bindings := ch.bindings ++ [(event, cb)] }) base.channels }

/-- Models `offMessage` (channels.ts): remove the callback, the transport
binding, and prune empty registry entries. -/
def offMessage (topic event : String) (cb : Nat) (m : Mgr) : Mgr :=
  match alGet topic m.messageListeners with
  | none => m
  | some tl =>
    match alGet event tl with
    | none => m
    | some el =>
      let el1 := el.filter (fun c => c ≠ cb)
      let chans := alUpdate topic
        (fun ch => { ch with bindings := ch.bindings.filter (fun b => !(b.1 = event && b.2 = cb)) })
        m.channels
      let tl1 := if el1.length = 0 then alDel event tl else alSet event el1 tl
      let ml := if tl1.length = 0 then alDel topic m.messageListeners
                else alSet topic tl1 m.messageListeners
      { m with messageListeners := ml, channels := chans }

/-- Models `getChannelCount`. -/
def getChannelCount (m : Mgr) : Nat := m.channels.length

/-- Models `getResourceStats().totalListeners` for the channel manager. -/
def totalChannelListeners (m : Mgr) : Nat :=
  (m.messageListeners.map (fun tl => (tl.2.map (fun el => el.2.length)).sum)).sum

/-- Models `cleanup`: leave every channel, then clear all registries. -/
def cleanup (now : Nat) (m : Mgr) : Mgr :=
  let m1 := (m.channels.map Prod.fst).foldl (fun acc t => (leaveChannel t now acc).fst) m
  { m1 with channels := [], channelStates := [], messageListeners := [] }

/-- The listener set the registry holds for `(topic, event)`. -/
def eventListenersOf (topic event : String) (m : Mgr) : List Nat :=
  (alGet event ((alGet topic m.messageListeners).getD [])).getD []

/-- The callbacks the transport channel would invoke for one message on
`(topic, event)`: each `channel.on` binding for that event fires once. -/
def deliveries (topic event : String) (m : Mgr) : List Nat :=
  match alGet topic m.channels with
  | none => []
  | some ch => (ch.bindings.filter (fun b => b.1 == event)).map Prod.snd

/-- The channel manager as constructed (`new PhoenixChannelManager(socket)`). -/
def initMgr : Mgr :=
  { hasSocket := true, channels := [], channelStates := [],
    messageListeners := [], nextId := 0 }

/-- One channel-manager operation, for invariant proofs over arbitrary
operation sequences. -/
inductive Op where
  | join (topic : String) (now : Nat) (ack : JoinAck)
  | leave (topic : String) (now : Nat)
  | send (topic event : String) (ack : SendAck)
  | onMsg (topic event : String) (cb : Nat)
  | offMsg (topic event : String) (cb : Nat)
  | clean (now : Nat)
  | setSocket (b : Bool)

/-- State transition of one operation. -/
def applyOp (m : Mgr) : Op → Mgr
  | .join topic now ack => (joinChannel topic now ack m).mgr
  | .leave topic now => (leaveChannel topic now m).fst
  | .send topic event ack => (sendMessage topic event ack m).fst
  | .onMsg topic event cb => onMessage topic event cb m
  | .offMsg topic event cb => offMessage topic event cb m
  | .clean now => cleanup now m
  | .setSocket b => { m with hasSocket := b }

/-- Running an operation sequence from the initial manager. -/
def run (ops : List Op) : Mgr := ops.foldl applyOp initMgr

end Chan

namespace Conn

/-- Models `ConnectionState.status` (core/connection). -/
inductive Status where
  | disconnected
  | connecting
  | connected
  | reconnecting
  | errorSt
  deriving DecidableEq, Repr

/-- Models `ConnectionState`; the `error` field is tracked as a presence flag. -/
structure ConnState where
  status : Status
  lastConnected : Option Nat
  lastDisconnected : Option Nat
  reconnectAttempts : Nat
  hasError : Bool
  deriving DecidableEq, Repr

/-- Models `ConnectionParams`: optional endpoint plus a `params` sub-map. -/
structure CParams where
  endpoint : Option String
  params : List (String × String)
  deriving DecidableEq, Repr

/-- The transport socket object: identity and its self-reported
connectivity (`socket.isConnected()`). -/
structure PSocket where
  id : Nat
  connected : Bool
  deriving DecidableEq, Repr

/-- Models `PhoenixConnectionManager` fields, with the storage adapter's
persisted record (`phoenixStorage`) and the relevant configuration
inlined as fields. -/
structure Mgr where
  socket : Option PSocket
  state : ConnState
  connectionParams : Option CParams
  storedParams : Option CParams
  lastReconnectTime : Nat
  cfgUseLongPoll : Bool
  cfgUrl : Option String
  envUrl : Option String
  nextId : Nat
  deriving DecidableEq, Repr

/-- Models `reconnectThrottleMs = 5000`. -/
def reconnectThrottleMs : Nat := 5000

/-- Events emitted through `phoenixEventManager` by the connection
manager. -/
inductive Evt where
  | connectEvt
  | reconnectEvt
  | disconnectEvt
  | errorEvt
  deriving DecidableEq, Repr

/-- Actions handed to `setTimeout`: reattempt `connect` with
`this.connectionParams` if present. -/
inductive Sched where
  | reconnectStored
  deriving DecidableEq, Repr

/-- Connect-call failures surfaced to the caller. -/
inductive CErr where
  | noUrl
  | constructFailed
  | checkLimitExceeded
  deriving DecidableEq, Repr

/-- Models `canConnect` (core/connection, lines 63-67). -/
def canConnect (m : Mgr) : Bool :=
  m.state.status = .disconnected || m.state.status = .errorSt

/-- Models `isConnected` (core/connection): transport self-report AND internal
status both say connected. -/
def isConnected (m : Mgr) : Bool :=
  (match m.socket with
    | some s => s.connected
    | none => false) && m.state.status = .connected

/-- Models `disconnect(reason?)` (core/connection): no-op without a socket;
otherwise release the handle and record the transition. -/
def disconnect (now : Nat) (m : Mgr) : Mgr :=
  match m.socket with
  | none => m
  | some _ =>
    { m with socket := none,
             state := { m.state with status := .disconnected, lastDisconnected := some now } }

/-- Shallow-merged `params` sub-map: `{...previous, ...incoming}`. -/
def mergeParamMaps (previous incoming : List (String × String)) : List (String × String) :=
  incoming.foldl (fun acc kv => alSet kv.1 kv.2 acc) previous

/-- Models `mergeConnectionParams` (core/connection): merge the incoming call
params over the stored ones, deep-merging only the `params` key. -/
def mergeConnectionParams (p : CParams) (stored : Option CParams) : CParams :=
  let previous := stored.getD { endpoint := none, params := [] }
  { endpoint := (match p.endpoint with | some e => some e | none => previous.endpoint),
    params := mergeParamMaps previous.params p.params }

/-- Models `buildSocketUrl` (core/connection): truthy explicit endpoint, else
truthy configured URL, else environment base URL (scheme/suffix
normalization elided), else a configuration error. -/
def buildSocketUrl (p : CParams) (cfgUrl envUrl : Option String) : Except CErr String :=
  match strOr p.endpoint none with
  | some e => .ok e
  | none =>
    match strOr cfgUrl none with
    | some u => .ok u
    | none =>
      match strOr envUrl none with
      | some b => .ok (b ++ "/socket")
      | none => .error .noUrl

/-- Models `handleConnectionError` (core/connection, lines 354-365): error
status, increment `reconnectAttempts`, emit the generic error event. -/
def handleConnectionError (m : Mgr) : Mgr :=
  { m with state := { m.state with
      status := .errorSt, hasError := true,
      reconnectAttempts := m.state.reconnectAttempts + 1 } }

/-- The transport's behavior for one connect attempt: the socket starts
reporting connected at poll number `k`, never connects, or the socket
constructor throws. -/
inductive Outcome where
  | opensAtPoll (k : Nat)
  | neverOpens
  | constructThrows
  deriving DecidableEq, Repr

/-- The `checkConnection` polling loop of `waitForConnection`
(core/connection, lines 329-350): attempts count up from 1, every 50 ms,
rejecting at attempt 100; returns settle outcome and elapsed ms.  The
`fuel` argument only drives structural recursion and is instantiated so
the attempt ceiling always fires first.  The surrounding 10 s
`setTimeout` never fires: the loop settles by 4950 ms. -/
def waitLoop (conn : Nat → Bool) (attempts fuel : Nat) : Except CErr Unit × Nat :=
  match fuel with
  | 0 => (.error .checkLimitExceeded, attempts * 50)
  | f + 1 =>
    let a := attempts + 1
    if 100 ≤ a then (.error .checkLimitExceeded, (a - 1) * 50)
    else if conn a then (.ok (), (a - 1) * 50)
    else waitLoop conn a f

/-- Models `waitForConnection` for a given transport outcome. -/
def waitForConnection (out : Outcome) : Except CErr Unit × Nat :=
  waitLoop (fun a => match out with | .opensAtPoll k => k ≤ a | _ => false) 0 100

/-- Result of a `connect` call: resulting manager, returned handle or
surfaced error, emitted events, elapsed wait (when the wait ran), and
the trace of statuses assigned during the call. -/
structure ConnectOut where
  mgr : Mgr
  res : Except CErr (Option Nat)
  events : List Evt
  waitMs : Option Nat
  trace : List Status
  deriving Repr

/-- Models `connect(params)` (core/connection, lines 72-105): guard via
`canConnect`, transition to `connecting`, merge and persist params,
build the URL, construct the socket, wait for the transport to
self-report connected (the `onOpen` handler then records the
`connected` state), and on failure route through
`handleConnectionError` and rethrow.  Since `connecting` was just
assigned, `wasReconnecting` is false and `onOpen` emits the plain
connect event. -/
def connect (p : CParams) (now : Nat) (out : Outcome) (m : Mgr) : ConnectOut :=
  if canConnect m = false then
    ⟨m, .ok (m.socket.map (fun s => s.id)), [], none, []⟩
  else
    let m1 := { m with state := { m.state with status := .connecting, hasError := false } }
    let eff := mergeConnectionParams p m1.storedParams
    match buildSocketUrl eff m1.cfgUrl m1.envUrl with
    | .error e => ⟨handleConnectionError m1, .error e, [.errorEvt], none, [.connecting, .errorSt]⟩
    | .ok _ =>
      match out with
      | .constructThrows =>
        ⟨handleConnectionError m1, .error .constructFailed, [.errorEvt], none,
          [.connecting, .errorSt]⟩
      | _ =>
        let sock : PSocket := { id := m1.nextId, connected := false }
        let m2 := { m1 with socket := some sock, nextId := m1.nextId + 1,
                            connectionParams := some eff, storedParams := some eff }
        match waitForConnection out with
        | (.ok _, t) =>
          let m3 := { m2 with
              socket := some { sock with connected := true },
              state := { m2.state with
                status := .connected, lastConnected := some now,
                reconnectAttempts := 0, hasError := false } }
          ⟨m3, .ok (some sock.id), [.connectEvt], some t, [.connecting, .connected]⟩
        | (.error e, t) =>
          ⟨handleConnectionError m2, .error e, [.errorEvt], some t, [.connecting, .errorSt]⟩

/-- Models `forceReconnect` (core/connection, lines 129-153): throttle window,
then disconnect, reset `reconnectAttempts`, and schedule a reconnect
with the stored params after 1 s.  Returns (manager, dropped?,
scheduled actions). -/
def forceReconnect (now : Nat) (m : Mgr) : Mgr × Bool × List (Nat × Sched) :=
  if now - m.lastReconnectTime < reconnectThrottleMs then
    (m, true, [])
  else
    let m1 := disconnect now { m with lastReconnectTime := now }
    let m2 := { m1 with state := { m1.state with reconnectAttempts := 0 } }
    (m2, false, [(1000, .reconnectStored)])

/-- Models `handlePollStatusError` (core/connection, lines 386-403): disable
long-poll, pass through `reconnecting`, tear the socket down, schedule
a reconnect with the stored params after 2 s; no generic error event. -/
def handlePollStatusError (now : Nat) (m : Mgr) : Mgr × List Evt × List (Nat × Sched) × List Status :=
  let m1 := { m with cfgUseLongPoll := false }
  let m2 := { m1 with state := { m1.state with status := .reconnecting } }
  let m3 := disconnect now m2
  let m4 := { m3 with socket := none }
  let trace := .reconnecting :: (match m2.socket with | some _ => [Status.disconnected] | none => [])
  (m4, [], [(2000, .reconnectStored)], trace)

/-- Models `handleSocketError` (core/connection, lines 367-384): the
poll-status class is routed to its recovery path; every other error
marks the error state (unless already reconnecting) and emits the
generic error event. -/
def handleSocketError (msg : String) (now : Nat) (m : Mgr) :
    Mgr × List Evt × List (Nat × Sched) × List Status :=
  if containsSub msg "unhandled poll status" then
    handlePollStatusError now m
  else
    if m.state.status ≠ .reconnecting then
      ({ m with state := { m.state with status := .errorSt, hasError := true } },
        [.errorEvt], [], [.errorSt])
    else
      (m, [.errorEvt], [], [])

end Conn

namespace Client

/-- Models `PhoenixClient.connectionState` values (phoenix-client.ts). -/
inductive Status where
  | disconnected
  | connecting
  | connected
  | reconnecting
  | errorSt
  deriving DecidableEq, Repr

/-- Models `PhoenixClient` fields relevant to connect/reconnect. -/
structure Mgr where
  socket : Option Nat
  socketConnected : Bool
  connectionState : Status
  channels : List (String × Nat)
  connectionParams : Option Conn.CParams
  cfgUrl : Option String
  envUrl : Option String
  nextId : Nat
  deriving DecidableEq, Repr

/-- Models `isConnected` (phoenix-client.ts): `socket?.isConnected() === true`. -/
def isConnected (m : Mgr) : Bool :=
  m.socket.isSome && m.socketConnected

/-- The endpoint half of `_hasConnectionParamsChanged`: a truthy new
endpoint differing from the previously resolved endpoint
(`connectionParams.endpoint || config.url`). -/
def endpointChangeDetected (cur : Conn.CParams) (cfgUrl : Option String)
    (options : Conn.CParams) : Bool :=
  match options.endpoint with
  | none => false
  | some e => e ≠ "" && strOr cur.endpoint cfgUrl ≠ some e

/-- The params half of `_hasConnectionParamsChanged`: some key of
either map has differing values (`!==`, with `undefined` for absent). -/
def paramsEntryChanged (cur options : Conn.CParams) : Bool :=
  (cur.params.map Prod.fst ++ options.params.map Prod.fst).any
    (fun k => alGet k cur.params ≠ alGet k options.params)

/-- Models `_hasConnectionParamsChanged` (phoenix-client.ts, lines 484-504). -/
def hasConnectionParamsChanged (m : Mgr) (options : Conn.CParams) : Bool :=
  match m.connectionParams with
  | none => false
  | some cur =>
    endpointChangeDetected cur m.cfgUrl options || paramsEntryChanged cur options

/-- The effective options computed at the top of `connect`
(phoenix-client.ts, lines 91-103): incoming spread over the previous
params with the `params` sub-map shallow-merged. -/
def effectiveOptions (m : Mgr) (incoming : Conn.CParams) : Conn.CParams :=
  let previous := m.connectionParams.getD { endpoint := none, params := [] }
  { endpoint := (match incoming.endpoint with | some e => some e | none => previous.endpoint),
    params := Conn.mergeParamMaps previous.params incoming.params }

/-- Models `disconnect` (phoenix-client.ts, lines 163-185): leave all
channels, release the socket, mark disconnected. -/
def disconnect (m : Mgr) : Mgr :=
  match m.socket with
  | none => m
  | some _ =>
    { m with channels := [], socket := none, socketConnected := false,
             connectionState := .disconnected }

/-- Models `_getSocketUrl` (phoenix-client.ts): endpoint, else configured URL,
else environment base URL, else a configuration error. -/
def getSocketUrl (options : Conn.CParams) (cfgUrl envUrl : Option String) :
    Except Unit String :=
  match strOr options.endpoint none with
  | some e => .ok e
  | none =>
    match strOr cfgUrl none with
    | some u => .ok u
    | none =>
      match strOr envUrl none with
      | some b => .ok (b ++ "/socket")
      | none => .error ()

/-- Result of `PhoenixClient.connect`: resulting client, returned
handle (or thrown error), whether `disconnect()` ran, and whether a
new socket was constructed. -/
structure Out where
  mgr : Mgr
  res : Except Unit (Option Nat)
  didDisconnect : Bool
  constructed : Bool
  deriving Repr

/-- Models `connect(options)` (phoenix-client.ts, lines 90-161): compute the
effective options; if already connected, return the existing socket
unless `_hasConnectionParamsChanged`, in which case disconnect first;
then guard against a concurrent `connecting` state, store the
effective params, and construct a fresh socket (which begins
connecting on its own). -/
def connect (incoming : Conn.CParams) (m : Mgr) : Out :=
  let eff := effectiveOptions m incoming
  let afterDisc :=
    if isConnected m then
      if hasConnectionParamsChanged m eff = false then none
      else some (disconnect m)
    else some m
  match afterDisc with
  | none => ⟨m, .ok m.socket, false, false⟩
  | some m1 =>
    let didDisc := decide (isConnected m = true)
    if m1.connectionState = .connecting then
      ⟨m1, .ok m1.socket, didDisc, false⟩
    else
      let m2 := { m1 with connectionState := .connecting, connectionParams := some eff }
      match getSocketUrl eff m2.cfgUrl m2.envUrl with
      | .error _ => ⟨{ m2 with connectionState := .errorSt }, .error (), didDisc, false⟩
      | .ok _ =>
        ⟨{ m2 with socket := some m2.nextId, socketConnected := false,
                   nextId := m2.nextId + 1 },
          .ok (some m2.nextId), didDisc, true⟩

end Client

namespace Evt

/-- Models `PhoenixEventManager` (core/events) over
`eventUtils.createEventEmitter` (utils): the emitter keeps handlers in
a per-event `Set` (modelled as a duplicate-free list in insertion
order), while the manager separately counts registrations per event. -/
structure Mgr where
  emitterListeners : List (String × List Nat)
  listenerCounts : List (String × Nat)
  deriving DecidableEq, Repr

/-- Models `maxListenersPerEvent = 20` (core/events). -/
def maxListenersPerEvent : Nat := 20

/-- The emitter's `on`: add-if-absent into the event's handler set. -/
def emitterOn (ev : String) (h : Nat) (l : List (String × List Nat)) :
    List (String × List Nat) :=
  let hs := (alGet ev l).getD []
  if h ∈ hs then alSet ev hs l else alSet ev (hs ++ [h]) l

/-- Models `PhoenixEventManager.on` (core/events, lines 32-44): drop the
registration at the cap, otherwise register with the emitter and bump
the per-event count. -/
def onEvt (ev : String) (h : Nat) (m : Mgr) : Mgr :=
  let currentCount := (alGet ev m.listenerCounts).getD 0
  if maxListenersPerEvent ≤ currentCount then m
  else
    { emitterListeners := emitterOn ev h m.emitterListeners,
      listenerCounts := alSet ev (currentCount + 1) m.listenerCounts }

/-- Models `PhoenixEventManager.off` (core/events, lines 49-55). -/
def off (ev : String) (h : Nat) (m : Mgr) : Mgr :=
  let hs := (alGet ev m.emitterListeners).getD []
  let hs1 := hs.filter (fun x => x ≠ h)
  let el := if hs1.length = 0 then alDel ev m.emitterListeners
            else alSet ev hs1 m.emitterListeners
  let c := (alGet ev m.listenerCounts).getD 0
  { emitterListeners := el,
    listenerCounts := if 0 < c then alSet ev (c - 1) m.listenerCounts
                      else m.listenerCounts }

/-- Models `emit`: the handlers invoked (in registration order) for one
emission of `ev`. -/
def emitInvokes (ev : String) (m : Mgr) : List Nat :=
  (alGet ev m.emitterListeners).getD []

/-- Models `getResourceStats().totalListeners` (core/events, lines 67-82):
the sum of the per-event registration counts. -/
def totalListeners (m : Mgr) : Nat :=
  (m.listenerCounts.map Prod.snd).sum

/-- The number of distinct handlers the emitter actually holds for an
event. -/
def distinctHandlers (ev : String) (m : Mgr) : Nat :=
  (emitInvokes ev m).length

/-- The manager as constructed. -/
def initMgr : Mgr := { emitterListeners := [], listenerCounts := [] }

end Evt

/-! Concrete sample states used by witnesses and counterexamples. -/

/-- The channel manager right after a first `joinChannel("room:lobby")`
has run its synchronous prefix (join still pending). -/
def pendingMgr : Chan.Mgr :=
  { hasSocket := true,
    channels := [("room:lobby",
      { id := 0, phxState := .joining, handlersInstalled := true,
        installCount := 1, bindings := [] })],
    channelStates := [("room:lobby",
      { status := .joining, hasError := false, lastJoined := none,
        lastLeft := none, messageCount := 0 })],
    messageListeners := [], nextId := 1 }

/-- The channel manager after `joinChannel("room:a")` resolved. -/
def joinedMgr : Chan.Mgr := (Chan.joinChannel "room:a" 0 .okA Chan.initMgr).mgr

/-- Fifty topics, "0" through "49". -/
def fiftyTopics : List String := (List.range 50).map (fun i => toString i)

/-- The channel manager after 50 successful joins (at the channel cap;
topic "49" is joined). -/
def fullMgr : Chan.Mgr :=
  fiftyTopics.foldl (fun m t => (Chan.joinChannel t 0 .okA m).mgr) Chan.initMgr

/-- Models `joinedMgr` with ten distinct callbacks registered on
`("room:a", "ev")` — the listener cap is reached. -/
def capListenerMgr : Chan.Mgr :=
  (List.range 10).foldl (fun m i => Chan.onMessage "room:a" "ev" i m) joinedMgr

/-- A connected connection manager with stored params and long-poll
enabled. -/
def connSample : Conn.Mgr :=
  { socket := some { id := 0, connected := true },
    state := { status := .connected, lastConnected := some 5, lastDisconnected := none,
               reconnectAttempts := 3, hasError := false },
    connectionParams := some { endpoint := some "wss://a", params := [] },
    storedParams := some { endpoint := some "wss://a", params := [] },
    lastReconnectTime := 0, cfgUseLongPoll := true, cfgUrl := none,
    envUrl := none, nextId := 1 }

/-- A disconnected connection manager ready to connect. -/
def discSample : Conn.Mgr :=
  { connSample with
    socket := none,
    state := { connSample.state with status := .disconnected } }

/-- A connected facade client whose last connect used no explicit
endpoint (the URL resolved through `config.url = "wss://x"`). -/
def clientSample : Client.Mgr :=
  { socket := some 1, socketConnected := true, connectionState := .connected,
    channels := [], connectionParams := some { endpoint := none, params := [] },
    cfgUrl := some "wss://x", envUrl := none, nextId := 2 }

/-- An incoming connect call that makes the endpoint explicit but equal
to the configured URL: the effective `endpoint` field changes, the
resolved URL does not. -/
def sameUrlIncoming : Conn.CParams := { endpoint := some "wss://x", params := [] }

/-- An incoming connect call with a changed params entry. -/
def changedParamIncoming : Conn.CParams := { endpoint := none, params := [("token", "b")] }

/-- The event manager after registering handler 5 twice for the error
event. -/
def dupEvtMgr : Evt.Mgr :=
  Evt.onEvt "phoenix_error" 5 (Evt.onEvt "phoenix_error" 5 Evt.initMgr)

/-- The event manager after registering the same handler 20 times for
one event: one distinct handler, twenty counted registrations. -/
def evtTwentyMgr : Evt.Mgr :=
  (List.range 20).foldl (fun m _ => Evt.onEvt "phoenix_error" 5 m) Evt.initMgr

/-! Generic lemmas about the JS-`Map` association-list operations. -/

theorem alGet_alSet_self {α : Type} (k : String) (v : α) (l : List (String × α)) :
    alGet k (alSet k v l) = some v := by
  induction l with
  | nil => simp [alGet, alSet]
  | cons hd tl ih =>
    by_cases h : hd.1 = k
    · simp [alGet, alSet, h]
    · simpa [alGet, alSet, h] using ih

theorem alGet_alSet_ne {α : Type} (k1 k : String) (v : α) (l : List (String × α))
    (h : k1 ≠ k) : alGet k1 (alSet k v l) = alGet k1 l := by
  have hne : k ≠ k1 := fun he => h he.symm
  induction l with
  | nil => simp [alGet, alSet, hne]
  | cons hd tl ih =>
    by_cases hk : hd.1 = k
    · simp [alGet, alSet, hk, hne]
    · by_cases hk1 : hd.1 = k1
      · simp [alGet, alSet, hk, hk1, h]
      · simp [alGet, alSet, hk, hk1, ih]

theorem alSet_same {α : Type} (k : String) (v : α) (l : List (String × α))
    (h : alGet k l = some v) : alSet k v l = l := by
  induction l with
  | nil => simp [alGet] at h
  | cons hd tl ih =>
    obtain ⟨a, b⟩ := hd
    by_cases hk : a = k
    · simp [alGet, hk] at h
      simp [alSet, hk, h]
    · simp [alGet, hk] at h
      simp [alSet, hk, ih h]

theorem alSet_alSet {α : Type} (k : String) (v1 v2 : α) (l : List (String × α)) :
    alSet k v2 (alSet k v1 l) = alSet k v2 l := by
  induction l with
  | nil => simp [alSet]
  | cons hd tl ih =>
    by_cases hk : hd.1 = k
    · simp [alSet, hk]
    · simp [alSet, hk, ih]

theorem length_alSet_le {α : Type} (k : String) (v : α) (l : List (String × α)) :
    (alSet k v l).length ≤ l.length + 1 := by
  induction l with
  | nil => simp [alSet]
  | cons hd tl ih =>
    by_cases hk : hd.1 = k
    · simp [alSet, hk]
    · simp only [alSet, hk, if_false, List.length_cons]
      omega

theorem length_alSet_of_mem {α : Type} (k : String) (v w : α) (l : List (String × α))
    (h : alGet k l = some w) : (alSet k v l).length = l.length := by
  induction l with
  | nil => simp [alGet] at h
  | cons hd tl ih =>
    by_cases hk : hd.1 = k
    · simp [alSet, hk]
    · simp [alGet, hk] at h
      simp [alSet, hk, ih h]

theorem length_alDel_le {α : Type} (k : String) (l : List (String × α)) :
    (alDel k l).length ≤ l.length := by
  induction l with
  | nil => simp [alDel]
  | cons hd tl ih =>
    by_cases hk : hd.1 = k
    · have he : alDel k (hd :: tl) = tl := by simp [alDel, hk]
      rw [he]
      exact Nat.le_succ_of_le (Nat.le_refl _)
    · have he : alDel k (hd :: tl) = hd :: alDel k tl := by simp [alDel, hk]
      rw [he, List.length_cons, List.length_cons]
      omega

theorem length_alUpdate {α : Type} (k : String) (f : α → α) (l : List (String × α)) :
    (alUpdate k f l).length = l.length := by
  induction l with
  | nil => simp [alUpdate]
  | cons hd tl ih =>
    by_cases hk : hd.1 = k
    · simp [alUpdate, hk]
    · simp [alUpdate, hk, ih]

theorem alGet_alUpdate_self {α : Type} (k : String) (f : α → α) (l : List (String × α)) :
    alGet k (alUpdate k f l) = (alGet k l).map f := by
  induction l with
  | nil => simp [alGet, alUpdate]
  | cons hd tl ih =>
    by_cases hk : hd.1 = k
    · simp [alGet, alUpdate, hk]
    · simpa [alGet, alUpdate, hk] using ih

/-! ## Claim theorems -/

/-- C1: an error whose message contains "unhandled poll status" makes the
connection manager disable long-poll, transition to `reconnecting`,
schedule a reconnect with the (unchanged) stored connection params after
the fixed 2 s delay, leave `reconnectAttempts` unchanged, and emit no
generic error event. -/
theorem c1_poll_status_recovery (m : Conn.Mgr) (msg : String) (now : Nat)
    (h : containsSub msg "unhandled poll status" = true) :
    (Conn.handleSocketError msg now m).1.cfgUseLongPoll = false ∧
    (Conn.handleSocketError msg now m).2.2.2.head? = some Conn.Status.reconnecting ∧
    (Conn.handleSocketError msg now m).2.2.1 = [(2000, Conn.Sched.reconnectStored)] ∧
    (Conn.handleSocketError msg now m).1.connectionParams = m.connectionParams ∧
    (Conn.handleSocketError msg now m).1.state.reconnectAttempts =
      m.state.reconnectAttempts ∧
    (Conn.handleSocketError msg now m).2.1 = [] := by
  simp only [Conn.handleSocketError, h, if_true]
  cases hs : m.socket <;>
    simp [Conn.handlePollStatusError, Conn.disconnect, hs]

/-- Witness for C1 at a concrete connected manager and error message. -/
theorem c1_witness :
    containsSub "boom unhandled poll status undefined" "unhandled poll status" = true ∧
    (Conn.handleSocketError "boom unhandled poll status undefined" 10 connSample).1.cfgUseLongPoll = false ∧
    (Conn.handleSocketError "boom unhandled poll status undefined" 10 connSample).2.1 = [] :=
  ⟨by decide,
    (c1_poll_status_recovery connSample "boom unhandled poll status undefined" 10 (by decide)).1,
    (c1_poll_status_recovery connSample "boom unhandled poll status undefined" 10 (by decide)).2.2.2.2.2⟩

/-- C5: a `forceReconnect` outside the 5 s throttle window disconnects,
resets `reconnectAttempts` to 0, and schedules a reconnect with the
stored params after 1 s; a second call within 5 s of it is dropped with
no state change and no scheduled cycle. -/
theorem c5_force_reconnect_throttle (m : Conn.Mgr) (t1 t2 : Nat)
    (h1 : Conn.reconnectThrottleMs ≤ t1 - m.lastReconnectTime)
    (h2 : t2 - t1 < Conn.reconnectThrottleMs) :
    (Conn.forceReconnect t1 m).2.1 = false ∧
    (Conn.forceReconnect t1 m).2.2 = [(1000, Conn.Sched.reconnectStored)] ∧
    (Conn.forceReconnect t1 m).1.state.reconnectAttempts = 0 ∧
    (Conn.forceReconnect t1 m).1.socket = none ∧
    (Conn.forceReconnect t1 m).1.connectionParams = m.connectionParams ∧
    Conn.forceReconnect t2 (Conn.forceReconnect t1 m).1 =
      ((Conn.forceReconnect t1 m).1, true, []) := by
  have hc1 : ¬(t1 - m.lastReconnectTime < Conn.reconnectThrottleMs) := by omega
  have hlast : (Conn.forceReconnect t1 m).1.lastReconnectTime = t1 := by
    simp only [Conn.forceReconnect, hc1, if_false]
    cases hs : m.socket <;> simp [Conn.disconnect, hs]
  refine ⟨?_, ?_, ?_, ?_, ?_, ?_⟩
  · simp only [Conn.forceReconnect, hc1, if_false]
  · simp only [Conn.forceReconnect, hc1, if_false]
  · simp only [Conn.forceReconnect, hc1, if_false]
  · simp only [Conn.forceReconnect, hc1, if_false]
    cases hs : m.socket <;> simp [Conn.disconnect, hs]
  · simp only [Conn.forceReconnect, hc1, if_false]
    cases hs : m.socket <;> simp [Conn.disconnect, hs]
  · generalize hM : (Conn.forceReconnect t1 m).1 = M1 at hlast ⊢
    have hcond : t2 - M1.lastReconnectTime < Conn.reconnectThrottleMs := by
      rw [hlast]; exact h2
    simp [Conn.forceReconnect, hcond]

/-- Witness for C5: one unthrottled call at t=6000, a second at t=8000. -/
theorem c5_witness :
    (Conn.forceReconnect 6000 connSample).2.1 = false ∧
    (Conn.forceReconnect 6000 connSample).1.state.reconnectAttempts = 0 ∧
    Conn.forceReconnect 8000 (Conn.forceReconnect 6000 connSample).1 =
      ((Conn.forceReconnect 6000 connSample).1, true, []) :=
  ⟨(c5_force_reconnect_throttle connSample 6000 8000 (by decide) (by decide)).1,
    (c5_force_reconnect_throttle connSample 6000 8000 (by decide) (by decide)).2.2.1,
    (c5_force_reconnect_throttle connSample 6000 8000 (by decide) (by decide)).2.2.2.2.2⟩

/-- C7: a `connect` call while the status is `connecting`, `connected`
or `reconnecting` is a no-op returning the current handle: the manager
is unchanged and no transport is constructed. -/
theorem c7_no_concurrent_connect (m : Conn.Mgr) (p : Conn.CParams) (now : Nat)
    (out : Conn.Outcome)
    (h : m.state.status = Conn.Status.connecting ∨
         m.state.status = Conn.Status.connected ∨
         m.state.status = Conn.Status.reconnecting) :
    Conn.connect p now out m =
      ⟨m, Except.ok (m.socket.map (fun s => s.id)), [], none, []⟩ := by
  have hc : Conn.canConnect m = false := by
    rcases h with h | h | h <;> simp [Conn.canConnect, h]
  simp [Conn.connect, hc]

/-- Witness for C7: a second connect while connected returns the
existing socket handle. -/
theorem c7_witness :
    Conn.connect { endpoint := some "wss://b", params := [] } 7 .neverOpens connSample =
      ⟨connSample, Except.ok (some 0), [], none, []⟩ :=
  c7_no_concurrent_connect connSample { endpoint := some "wss://b", params := [] } 7
    .neverOpens (Or.inr (Or.inl rfl))

theorem sum_snd_alSet_add (k : String) (v : Nat) (l : List (String × Nat)) :
    ((alSet k ((alGet k l).getD 0 + v) l).map Prod.snd).sum =
      (l.map Prod.snd).sum + v := by
  induction l with
  | nil => simp [alGet, alSet]
  | cons hd tl ih =>
    obtain ⟨a, b⟩ := hd
    by_cases hk : a = k
    · simp only [alGet, hk, if_true, Option.getD_some, alSet, List.map_cons,
        List.sum_cons]
      omega
    · simp only [alGet, hk, if_false, alSet, List.map_cons, List.sum_cons]
      omega

/-- C10: in the global event manager, registering the same handler twice
for one event leaves the emitter's handler set with a single copy (one
invocation per emit) while the per-event listener count rises by two, so
duplicate registrations consume slots toward the cap of 20 and
`getResourceStats().totalListeners` can exceed the number of distinct
registered handlers. -/
theorem c10_event_bus_duplicate_counting (m : Evt.Mgr) (ev : String) (hnd : Nat)
    (hcap : (alGet ev m.listenerCounts).getD 0 + 1 < Evt.maxListenersPerEvent)
    (hnew : hnd ∉ Evt.emitInvokes ev m) :
    ((Evt.emitInvokes ev (Evt.onEvt ev hnd (Evt.onEvt ev hnd m))).count hnd = 1 ∧
      alGet ev (Evt.onEvt ev hnd (Evt.onEvt ev hnd m)).listenerCounts =
        some ((alGet ev m.listenerCounts).getD 0 + 2) ∧
      Evt.totalListeners (Evt.onEvt ev hnd (Evt.onEvt ev hnd m)) =
        Evt.totalListeners m + 2) ∧
    (Evt.totalListeners evtTwentyMgr = 20 ∧
      Evt.distinctHandlers "phoenix_error" evtTwentyMgr = 1 ∧
      Evt.onEvt "phoenix_error" 6 evtTwentyMgr = evtTwentyMgr ∧
      6 ∉ Evt.emitInvokes "phoenix_error" evtTwentyMgr) := by
  have hclosed : Evt.totalListeners evtTwentyMgr = 20 ∧
      Evt.distinctHandlers "phoenix_error" evtTwentyMgr = 1 ∧
      Evt.onEvt "phoenix_error" 6 evtTwentyMgr = evtTwentyMgr ∧
      6 ∉ Evt.emitInvokes "phoenix_error" evtTwentyMgr := by decide
  refine ⟨?_, hclosed⟩
  have hc1 : ¬(Evt.maxListenersPerEvent ≤ (alGet ev m.listenerCounts).getD 0) := by
    omega
  have hnotmem : hnd ∉ (alGet ev m.emitterListeners).getD [] := hnew
  have e1 : Evt.onEvt ev hnd m =
      { emitterListeners :=
          alSet ev (((alGet ev m.emitterListeners).getD []) ++ [hnd]) m.emitterListeners,
        listenerCounts :=
          alSet ev ((alGet ev m.listenerCounts).getD 0 + 1) m.listenerCounts } := by
    simp [Evt.onEvt, Evt.emitterOn, hc1, hnotmem]
  have h1eL : alGet ev (Evt.onEvt ev hnd m).emitterListeners =
      some (((alGet ev m.emitterListeners).getD []) ++ [hnd]) := by
    rw [e1]
    exact alGet_alSet_self ev _ m.emitterListeners
  have h1cnt : alGet ev (Evt.onEvt ev hnd m).listenerCounts =
      some ((alGet ev m.listenerCounts).getD 0 + 1) := by
    rw [e1]
    exact alGet_alSet_self ev _ m.listenerCounts
  have hc2 : ¬(Evt.maxListenersPerEvent ≤
      (alGet ev (Evt.onEvt ev hnd m).listenerCounts).getD 0) := by
    rw [h1cnt]
    simp only [Option.getD_some]
    omega
  have hc2p : ¬(Evt.maxListenersPerEvent ≤ (alGet ev m.listenerCounts).getD 0 + 1) := by
    omega
  have e2 : Evt.onEvt ev hnd (Evt.onEvt ev hnd m) =
      { emitterListeners := (Evt.onEvt ev hnd m).emitterListeners,
        listenerCounts :=
          alSet ev ((alGet ev m.listenerCounts).getD 0 + 2)
            (Evt.onEvt ev hnd m).listenerCounts } := by
    generalize hM : Evt.onEvt ev hnd m = M1 at h1eL h1cnt
    simp only [Evt.onEvt, Evt.emitterOn, h1cnt, Option.getD_some, hc2p, if_false, h1eL]
    rw [if_pos (by simp)]
    rw [alSet_same ev _ _ h1eL]
  refine ⟨?_, ?_, ?_⟩
  · rw [e2]
    show ((alGet ev (Evt.onEvt ev hnd m).emitterListeners).getD []).count hnd = 1
    rw [h1eL]
    simp only [Option.getD_some, List.count_append]
    rw [List.count_eq_zero.mpr hnotmem]
    simp
  · rw [e2]
    show alGet ev (alSet ev ((alGet ev m.listenerCounts).getD 0 + 2)
      (Evt.onEvt ev hnd m).listenerCounts) = some ((alGet ev m.listenerCounts).getD 0 + 2)
    exact alGet_alSet_self ev _ _
  · rw [e2]
    show ((alSet ev ((alGet ev m.listenerCounts).getD 0 + 2)
        (Evt.onEvt ev hnd m).listenerCounts).map Prod.snd).sum =
      (m.listenerCounts.map Prod.snd).sum + 2
    rw [e1]
    show ((alSet ev ((alGet ev m.listenerCounts).getD 0 + 2)
        (alSet ev ((alGet ev m.listenerCounts).getD 0 + 1) m.listenerCounts)).map Prod.snd).sum =
      (m.listenerCounts.map Prod.snd).sum + 2
    rw [alSet_alSet]
    exact sum_snd_alSet_add ev 2 m.listenerCounts

/-- Witness for C10: a duplicate registration on a fresh manager counts
twice while invoking once. -/
theorem c10_witness :
    (Evt.emitInvokes "phoenix_error" dupEvtMgr).count 5 = 1 ∧
    Evt.totalListeners dupEvtMgr = 2 ∧
    Evt.onEvt "phoenix_error" 6 evtTwentyMgr = evtTwentyMgr :=
  ⟨(c10_event_bus_duplicate_counting Evt.initMgr "phoenix_error" 5 (by decide)
      (by decide)).1.1,
    (c10_event_bus_duplicate_counting Evt.initMgr "phoenix_error" 5 (by decide)
      (by decide)).1.2.2,
    (c10_event_bus_duplicate_counting Evt.initMgr "phoenix_error" 5 (by decide)
      (by decide)).2.2.2.1⟩

/-- C2 counterexample: while connected with last effective params
`{endpoint: none, params: {}}` (URL resolved via `config.url`), calling
`connect({endpoint: "wss://x"})` changes the effective `endpoint`
parameter, yet the client returns the existing handle without
disconnecting, because `_hasConnectionParamsChanged` compares against
`connectionParams.endpoint || config.url`. -/
theorem c2_counterexample :
    Client.isConnected clientSample = true ∧
    clientSample.connectionParams = some { endpoint := none, params := [] } ∧
    (Client.effectiveOptions clientSample sameUrlIncoming).endpoint = some "wss://x" ∧
    (Client.connect sameUrlIncoming clientSample).didDisconnect = false ∧
    (Client.connect sameUrlIncoming clientSample).mgr = clientSample ∧
    (Client.connect sameUrlIncoming clientSample).res = Except.ok (some 1) :=
  ⟨rfl, rfl, rfl, rfl, rfl, rfl⟩

/-- C2 (amended): while connected, `connect` returns the existing handle
without disconnecting exactly when `_hasConnectionParamsChanged` reports
no change (no params entry differs and the endpoint, when truthy, equals
the previously resolved endpoint); when it reports a change, the client
disconnects first and then constructs a fresh transport with the new
effective params. -/
theorem c2_amended_param_change (m : Client.Mgr) (incoming : Conn.CParams)
    (hconn : Client.isConnected m = true) :
    (Client.hasConnectionParamsChanged m (Client.effectiveOptions m incoming) = false →
      Client.connect incoming m = ⟨m, Except.ok m.socket, false, false⟩) ∧
    (Client.hasConnectionParamsChanged m (Client.effectiveOptions m incoming) = true →
      (Client.connect incoming m).didDisconnect = true ∧
      (Client.connect incoming m).mgr.connectionParams =
        some (Client.effectiveOptions m incoming) ∧
      (∀ u, Client.getSocketUrl (Client.effectiveOptions m incoming) m.cfgUrl m.envUrl =
          Except.ok u →
        (Client.connect incoming m).constructed = true ∧
        (Client.connect incoming m).res = Except.ok (some m.nextId))) := by
  have hsock : m.socket.isSome = true ∧ m.socketConnected = true := by
    simpa [Client.isConnected, Bool.and_eq_true] using hconn
  obtain ⟨s, hs⟩ := Option.isSome_iff_exists.mp hsock.1
  have hdisc : Client.disconnect m =
      { m with channels := [], socket := none, socketConnected := false,
               connectionState := Client.Status.disconnected } := by
    simp [Client.disconnect, hs]
  constructor
  · intro hch
    simp [Client.connect, hconn, hch]
  · intro hch
    have hred : Client.connect incoming m =
        (match Client.getSocketUrl (Client.effectiveOptions m incoming) m.cfgUrl m.envUrl with
          | .error _ =>
            ⟨{ m with
                channels := [],
                socket := none,
                socketConnected := false,
                connectionState := Client.Status.errorSt,
                connectionParams := some (Client.effectiveOptions m incoming) },
              Except.error (), true, false⟩
          | .ok _ =>
            ⟨{ m with
                channels := [],
                socketConnected := false,
                connectionState := Client.Status.connecting,
                connectionParams := some (Client.effectiveOptions m incoming),
                socket := some m.nextId,
                nextId := m.nextId + 1 },
              Except.ok (some m.nextId), true, true⟩) := by
      simp [Client.connect, hconn, hch, hdisc]
    refine ⟨?_, ?_, ?_⟩
    · rw [hred]
      cases hu : Client.getSocketUrl (Client.effectiveOptions m incoming) m.cfgUrl m.envUrl <;>
        simp
    · rw [hred]
      cases hu : Client.getSocketUrl (Client.effectiveOptions m incoming) m.cfgUrl m.envUrl <;>
        simp
    · intro u hu
      rw [hred, hu]
      exact ⟨rfl, rfl⟩

/-- Witness for C2 (amended): a changed `token` params entry makes the
connected client disconnect and construct a new transport. -/
theorem c2_witness :
    (Client.connect changedParamIncoming clientSample).didDisconnect = true ∧
    (Client.connect changedParamIncoming clientSample).constructed = true ∧
    (Client.connect changedParamIncoming clientSample).res = Except.ok (some 2) :=
  ⟨((c2_amended_param_change clientSample changedParamIncoming rfl).2 rfl).1,
    (((c2_amended_param_change clientSample changedParamIncoming rfl).2 rfl).2.2 "wss://x" rfl).1,
    (((c2_amended_param_change clientSample changedParamIncoming rfl).2 rfl).2.2 "wss://x" rfl).2⟩

theorem length_alSet_of_none {α : Type} (k : String) (v : α) (l : List (String × α))
    (h : alGet k l = none) : (alSet k v l).length = l.length + 1 := by
  induction l with
  | nil => simp [alSet]
  | cons hd tl ih =>
    by_cases hk : hd.1 = k
    · simp [alGet, hk] at h
    · simp [alGet, hk] at h
      simp [alSet, hk, ih h]

theorem setup_id (ch : Chan.PChannel) :
    (Chan.setupChannelHandlers ch).id = ch.id := by
  by_cases hi : ch.handlersInstalled <;> simp [Chan.setupChannelHandlers, hi]

theorem setup_installed (ch : Chan.PChannel) :
    (Chan.setupChannelHandlers ch).handlersInstalled = true := by
  by_cases hi : ch.handlersInstalled <;> simp [Chan.setupChannelHandlers, hi]

theorem setup_of_installed (ch : Chan.PChannel) (h : ch.handlersInstalled = true) :
    Chan.setupChannelHandlers ch = ch := by
  simp [Chan.setupChannelHandlers, h]

/-- Facts established by the synchronous prefix of `joinChannel` when it
reaches the join-initiation point. -/
theorem joinStart_started_props (t : String) (m m1 : Chan.Mgr) (cid : Nat)
    (h : Chan.joinStart t m = Chan.StartResult.started m1 cid) :
    m.hasSocket = true ∧ m1.hasSocket = true ∧
    m.channels.length < Chan.maxChannels ∧
    m1.channels.length ≤ Chan.maxChannels ∧
    ∃ ch1, alGet t m1.channels = some ch1 ∧ ch1.id = cid ∧
      ch1.phxState = Chan.PhxState.joining ∧ ch1.handlersInstalled = true := by
  simp only [Chan.joinStart] at h
  split at h
  · exact Chan.StartResult.noConfusion h
  · rename_i hsck
    have hsck1 : m.hasSocket = true := by
      cases hb : m.hasSocket
      · exact absurd hb hsck
      · rfl
    split at h
    · exact Chan.StartResult.noConfusion h
    · rename_i hcap
      split at h
      · rename_i ch hget
        split at h
        · exact Chan.StartResult.noConfusion h
        · injection h with h1 h2
          subst h1
          subst h2
          refine ⟨hsck1, hsck1, by omega, ?_, ?_⟩
          · show (alSet t _ m.channels).length ≤ Chan.maxChannels
            rw [length_alSet_of_mem t _ ch m.channels hget]
            omega
          · refine ⟨_, alGet_alSet_self t _ m.channels, ?_, rfl, ?_⟩
            · exact setup_id ch
            · exact setup_installed ch
      · rename_i hget
        injection h with h1 h2
        subst h1
        subst h2
        refine ⟨hsck1, hsck1, by omega, ?_, ?_⟩
        · show (alSet t _ m.channels).length ≤ Chan.maxChannels
          rw [length_alSet_of_none t _ m.channels hget]
          omega
        · refine ⟨_, alGet_alSet_self t _ m.channels, rfl, rfl, ?_⟩
          exact setup_installed (Chan.mkChannel m.nextId)

/-- C6 (amended): `sendMessage` rejects with the not-found error exactly
when the topic has no registered channel; with a channel it settles per
the transport acknowledgment (`ok` resolves and bumps the topic's
`messageCount`, `error` and `timeout` reject with their dedicated
errors); and because `joinChannel` registers the channel object before
awaiting the join acknowledgment, a send issued while the join is still
pending does NOT reject with the not-found error. -/
theorem c6_send_message (m : Chan.Mgr) (t e : String) (r : Nat) (ack : Chan.SendAck) :
    (alGet t m.channels = none →
      Chan.sendMessage t e ack m = (m, Except.error Chan.Err.channelNotFound)) ∧
    ((alGet t m.channels).isSome = true →
      (Chan.sendMessage t e (Chan.SendAck.okA r) m).2 = Except.ok r ∧
      alGet t (Chan.sendMessage t e (Chan.SendAck.okA r) m).1.channelStates =
        (alGet t m.channelStates).map
          (fun s => { s with messageCount := s.messageCount + 1 }) ∧
      Chan.sendMessage t e Chan.SendAck.errA m =
        (m, Except.error Chan.Err.messageError) ∧
      Chan.sendMessage t e Chan.SendAck.timeoutA m =
        (m, Except.error Chan.Err.messageTimeout)) ∧
    (∀ m1 cid, Chan.joinStart t m = Chan.StartResult.started m1 cid →
      (Chan.sendMessage t e ack m1).2 ≠ Except.error Chan.Err.channelNotFound) := by
  refine ⟨?_, ?_, ?_⟩
  · intro hnone
    cases ack <;> simp [Chan.sendMessage, hnone]
  · intro hsome
    obtain ⟨ch, hch⟩ := Option.isSome_iff_exists.mp hsome
    refine ⟨?_, ?_, ?_, ?_⟩
    · simp [Chan.sendMessage, hch]
    · simp only [Chan.sendMessage, hch]
      exact alGet_alUpdate_self t _ m.channelStates
    · simp [Chan.sendMessage, hch]
    · simp [Chan.sendMessage, hch]
  · intro m1 cid hstart
    obtain ⟨-, -, -, -, ch1, hch1, -, -, -⟩ := joinStart_started_props t m m1 cid hstart
    cases ack <;> simp [Chan.sendMessage, hch1]

/-- C6 counterexample: with the join of "room:lobby" still pending, the
channel is already in the registry, so a send resolves with the
transport's `ok` response instead of rejecting with
ChannelNotFoundError as the claim states. -/
theorem c6_counterexample :
    Chan.joinStart "room:lobby" Chan.initMgr =
      Chan.StartResult.started pendingMgr 0 ∧
    (alGet "room:lobby" pendingMgr.channelStates).map Chan.ChannelState.status =
      some Chan.CStatus.joining ∧
    (Chan.sendMessage "room:lobby" "msg" (Chan.SendAck.okA 7) pendingMgr).2 =
      Except.ok 7 ∧
    (Chan.sendMessage "room:lobby" "msg" (Chan.SendAck.okA 7) pendingMgr).2 ≠
      Except.error Chan.Err.channelNotFound := by
  refine ⟨rfl, rfl, rfl, ?_⟩
  intro hc
  rw [show (Chan.sendMessage "room:lobby" "msg" (Chan.SendAck.okA 7) pendingMgr).2 =
    Except.ok 7 from rfl] at hc
  exact Except.noConfusion hc

/-- Witness for C6 (amended) at the pending-join manager. -/
theorem c6_witness :
    Chan.sendMessage "nope" "msg" (Chan.SendAck.okA 1) Chan.initMgr =
      (Chan.initMgr, Except.error Chan.Err.channelNotFound) ∧
    (Chan.sendMessage "room:lobby" "msg" (Chan.SendAck.okA 7) pendingMgr).2 =
      Except.ok 7 ∧
    (Chan.sendMessage "room:lobby" "m" Chan.SendAck.errA pendingMgr).2 ≠
      Except.error Chan.Err.channelNotFound :=
  ⟨(c6_send_message Chan.initMgr "nope" "msg" 1 (Chan.SendAck.okA 1)).1 rfl,
    ((c6_send_message pendingMgr "room:lobby" "msg" 7 (Chan.SendAck.okA 7)).2.1 rfl).1,
    (c6_send_message Chan.initMgr "room:lobby" "m" 7 Chan.SendAck.errA).2.2
      pendingMgr 0 rfl⟩

theorem onMessage_channels_length (t e : String) (cb : Nat) (m : Chan.Mgr) :
    (Chan.onMessage t e cb m).channels.length = m.channels.length := by
  cases hget : alGet t m.channels with
  | none => simp [Chan.onMessage, hget]
  | some ch =>
    simp only [Chan.onMessage, hget]
    by_cases hcap : Chan.maxListenersPerEvent ≤
        ((alGet e ((alGet t m.messageListeners).getD [])).getD []).length
    · simp [hcap]
    · rw [if_neg hcap]
      by_cases hmem : cb ∈ (alGet e ((alGet t m.messageListeners).getD [])).getD []
      · simp [hmem]
      · simp only [hmem, if_false]
        exact length_alSet_of_mem t _ ch m.channels hget

theorem joinChannel_channels_le (t : String) (now : Nat) (ack : Chan.JoinAck)
    (m : Chan.Mgr) (h : m.channels.length ≤ Chan.maxChannels) :
    (Chan.joinChannel t now ack m).mgr.channels.length ≤ Chan.maxChannels := by
  cases hstart : Chan.joinStart t m with
  | failed e =>
    simpa [Chan.joinChannel, hstart] using h
  | already cid =>
    simpa [Chan.joinChannel, hstart] using h
  | started m1 cid =>
    obtain ⟨-, -, -, hlen, -⟩ := joinStart_started_props t m m1 cid hstart
    cases ack <;> simp [Chan.joinChannel, hstart, length_alUpdate, hlen]

theorem applyOp_channels_le (m : Chan.Mgr) (op : Chan.Op)
    (h : m.channels.length ≤ Chan.maxChannels) :
    (Chan.applyOp m op).channels.length ≤ Chan.maxChannels := by
  cases op with
  | join t now ack => exact joinChannel_channels_le t now ack m h
  | leave t now =>
    simp only [Chan.applyOp, Chan.leaveChannel]
    cases hget : alGet t m.channels
    · simpa using h
    · simp only []
      calc (alDel t m.channels).length ≤ m.channels.length := length_alDel_le t m.channels
        _ ≤ Chan.maxChannels := h
  | send t e ack =>
    simp only [Chan.applyOp, Chan.sendMessage]
    cases hget : alGet t m.channels
    · simpa using h
    · cases ack <;> simpa using h
  | onMsg t e cb =>
    simp only [Chan.applyOp]
    rw [onMessage_channels_length]
    exact h
  | offMsg t e cb =>
    simp only [Chan.applyOp, Chan.offMessage]
    cases h1 : alGet t m.messageListeners
    · simpa using h
    · rename_i tl
      cases h2 : alGet e tl
      · simp only [h2]
        exact h
      · simp only [h2]
        rw [length_alUpdate]
        exact h
  | clean now =>
    simp [Chan.applyOp, Chan.cleanup]
  | setSocket b =>
    simpa [Chan.applyOp] using h

theorem run_channels_le (ops : List Chan.Op) :
    (Chan.run ops).channels.length ≤ Chan.maxChannels := by
  suffices hsuff : ∀ (l : List Chan.Op) (m : Chan.Mgr),
      m.channels.length ≤ Chan.maxChannels →
      (l.foldl Chan.applyOp m).channels.length ≤ Chan.maxChannels by
    exact hsuff ops Chan.initMgr (by simp [Chan.initMgr, Chan.maxChannels])
  intro l
  induction l with
  | nil => intro m hm; exact hm
  | cons op tl ih =>
    intro m hm
    exact ih _ (applyOp_channels_le m op hm)

/-- C4: under any sequence of channel-manager operations the number of
open channels never exceeds the fixed cap `maxChannels = 50`, and any
`joinChannel` call finding the count at the cap rejects with the
capacity-exceeded error, without creating a channel or emitting any
event. -/
theorem c4_channel_cap :
    (∀ ops : List Chan.Op, (Chan.run ops).channels.length ≤ Chan.maxChannels) ∧
    (∀ (m : Chan.Mgr) (t : String) (now : Nat) (ack : Chan.JoinAck),
      m.hasSocket = true → Chan.maxChannels ≤ m.channels.length →
      Chan.joinChannel t now ack m = ⟨m, Except.error Chan.Err.maxChannelsExceeded, []⟩) := by
  refine ⟨run_channels_le, ?_⟩
  intro m t now ack hsock hcap
  have hstart : Chan.joinStart t m = Chan.StartResult.failed Chan.Err.maxChannelsExceeded := by
    simp [Chan.joinStart, hsock, hcap]
  simp [Chan.joinChannel, hstart]

set_option maxRecDepth 4000 in
/-- Witness for C4: at the 50-channel manager, a further join on a fresh
topic rejects with the capacity error and changes nothing. -/
theorem c4_witness :
    (Chan.run [Chan.Op.join "a" 0 Chan.JoinAck.okA]).channels.length ≤ Chan.maxChannels ∧
    Chan.joinChannel "x" 3 Chan.JoinAck.okA fullMgr =
      ⟨fullMgr, Except.error Chan.Err.maxChannelsExceeded, []⟩ :=
  ⟨c4_channel_cap.1 [Chan.Op.join "a" 0 Chan.JoinAck.okA],
    c4_channel_cap.2 fullMgr "x" 3 Chan.JoinAck.okA rfl (by decide)⟩

/-- Facts established when the synchronous prefix of `joinChannel`
early-returns an already-joined channel. -/
theorem joinStart_already_props (t : String) (m : Chan.Mgr) (cid : Nat)
    (h : Chan.joinStart t m = Chan.StartResult.already cid) :
    m.hasSocket = true ∧
    ∃ ch, alGet t m.channels = some ch ∧ ch.id = cid ∧
      ch.phxState = Chan.PhxState.joined := by
  simp only [Chan.joinStart] at h
  split at h
  · exact Chan.StartResult.noConfusion h
  · rename_i hsck
    have hsck1 : m.hasSocket = true := by
      cases hb : m.hasSocket
      · exact absurd hb hsck
      · rfl
    split at h
    · exact Chan.StartResult.noConfusion h
    · split at h
      · rename_i ch hget
        split at h
        · rename_i hj
          injection h with h1
          exact ⟨hsck1, ch, hget, h1.symm ▸ rfl, hj⟩
        · exact Chan.StartResult.noConfusion h
      · exact Chan.StartResult.noConfusion h

/-- The early idempotent return of `joinChannel` on a joined topic
below the channel cap. -/
theorem joinChannel_already (t : String) (now : Nat) (ack : Chan.JoinAck) (m : Chan.Mgr)
    (ch : Chan.PChannel) (hsock : m.hasSocket = true)
    (hlen : m.channels.length < Chan.maxChannels)
    (hch : alGet t m.channels = some ch) (hj : ch.phxState = Chan.PhxState.joined) :
    Chan.joinChannel t now ack m = ⟨m, Except.ok ch.id, []⟩ := by
  have hnc : ¬(Chan.maxChannels ≤ m.channels.length) := by omega
  have hstart : Chan.joinStart t m = Chan.StartResult.already ch.id := by
    simp [Chan.joinStart, hsock, hnc, hch, hj]
  simp [Chan.joinChannel, hstart]

/-- After a join resolved with `ok`, the topic's channel is registered
and joined with the resolved handle's identity. -/
theorem joinChannel_ok_props (t : String) (now : Nat) (m : Chan.Mgr) (cid : Nat)
    (h : (Chan.joinChannel t now Chan.JoinAck.okA m).res = Except.ok cid) :
    (Chan.joinChannel t now Chan.JoinAck.okA m).mgr.hasSocket = true ∧
    ∃ ch, alGet t (Chan.joinChannel t now Chan.JoinAck.okA m).mgr.channels = some ch ∧
      ch.id = cid ∧ ch.phxState = Chan.PhxState.joined := by
  cases hstart : Chan.joinStart t m with
  | failed e =>
    rw [show Chan.joinChannel t now Chan.JoinAck.okA m =
      ⟨m, Except.error e, []⟩ from by simp [Chan.joinChannel, hstart]] at h
    exact Except.noConfusion h
  | already cid2 =>
    obtain ⟨hsock, ch, hch, hid, hj⟩ := joinStart_already_props t m cid2 hstart
    rw [show Chan.joinChannel t now Chan.JoinAck.okA m =
      ⟨m, Except.ok cid2, []⟩ from by simp [Chan.joinChannel, hstart]] at h ⊢
    injection h with h1
    exact ⟨hsock, ch, hch, h1 ▸ hid, hj⟩
  | started m1 cid2 =>
    obtain ⟨-, hsock1, -, -, ch1, hch1, hid, -, -⟩ :=
      joinStart_started_props t m m1 cid2 hstart
    rw [show Chan.joinChannel t now Chan.JoinAck.okA m =
      ⟨{ m1 with
          channels := alUpdate t (fun c => { c with phxState := .joined }) m1.channels,
          channelStates := Chan.updateChannelState t
            (fun s => { s with status := .joined, lastJoined := some now, hasError := false })
            m1.channelStates },
        Except.ok cid2, [Chan.Evt.channelJoin t]⟩ from by
      simp [Chan.joinChannel, hstart]] at h ⊢
    injection h with h1
    refine ⟨hsock1, ?_⟩
    rw [show alGet t (alUpdate t
        (fun c => ({ c with phxState := Chan.PhxState.joined } : Chan.PChannel))
        m1.channels) = (alGet t m1.channels).map
        (fun c => { c with phxState := Chan.PhxState.joined }) from
      alGet_alUpdate_self t _ m1.channels]
    rw [hch1]
    exact ⟨_, rfl, h1 ▸ hid, rfl⟩

/-- C3 (amended): repeated `joinChannel(t)` calls never create a second
channel object for `t` and install the per-channel handlers at most once
per object; while the channel count stays below `maxChannels`, a second
call during a pending join or after a completed join resolves to the
same handle (at the cap it instead rejects with the capacity error, see
the counterexample). -/
theorem c3_join_idempotent (m m1 : Chan.Mgr) (t : String) (cid now1 now2 : Nat) :
    (Chan.joinStart t m = Chan.StartResult.started m1 cid →
      m1.channels.length < Chan.maxChannels →
      (Chan.joinChannel t now2 Chan.JoinAck.okA m1).res = Except.ok cid ∧
      (Chan.joinChannel t now2 Chan.JoinAck.okA m1).mgr.channels.length =
        m1.channels.length ∧
      (alGet t (Chan.joinChannel t now2 Chan.JoinAck.okA m1).mgr.channels).map
          Chan.PChannel.installCount =
        (alGet t m1.channels).map Chan.PChannel.installCount) ∧
    ((Chan.joinChannel t now1 Chan.JoinAck.okA m).res = Except.ok cid →
      (Chan.joinChannel t now1 Chan.JoinAck.okA m).mgr.channels.length <
        Chan.maxChannels →
      Chan.joinChannel t now2 Chan.JoinAck.okA
          ((Chan.joinChannel t now1 Chan.JoinAck.okA m).mgr) =
        ⟨(Chan.joinChannel t now1 Chan.JoinAck.okA m).mgr, Except.ok cid, []⟩) ∧
    (alGet t m.channels = none → Chan.joinStart t m = Chan.StartResult.started m1 cid →
      (alGet t m1.channels).map Chan.PChannel.installCount = some 1) := by
  refine ⟨?_, ?_, ?_⟩
  · intro hstart hlen
    obtain ⟨-, hsock1, -, -, ch1, hch1, hid, hjoining, hinst⟩ :=
      joinStart_started_props t m m1 cid hstart
    have hnc : ¬(Chan.maxChannels ≤ m1.channels.length) := by omega
    have hnj : ¬(ch1.phxState = Chan.PhxState.joined) := by
      rw [hjoining]
      simp
    have hch2 : ({ ch1 with phxState := Chan.PhxState.joining } : Chan.PChannel) = ch1 := by
      cases ch1
      simp_all
    have hstart2 : Chan.joinStart t m1 = Chan.StartResult.started
        { m1 with
            channelStates := Chan.updateChannelState t
              (fun s => { s with status := Chan.CStatus.joining }) m1.channelStates,
            channels := m1.channels } ch1.id := by
      simp only [Chan.joinStart, hch1, hsock1]
      rw [if_neg (by simp), if_neg hnc, if_neg hnj,
        setup_of_installed ch1 hinst, hch2, alSet_same t ch1 m1.channels hch1]
    rw [show Chan.joinChannel t now2 Chan.JoinAck.okA m1 =
      ⟨{ m1 with
          channels := alUpdate t
            (fun c => { c with phxState := .joined })
            m1.channels,
          channelStates := Chan.updateChannelState t
            (fun s => { s with status := .joined, lastJoined := some now2, hasError := false })
            (Chan.updateChannelState t
              (fun s => { s with status := Chan.CStatus.joining }) m1.channelStates) },
        Except.ok ch1.id, [Chan.Evt.channelJoin t]⟩ from by
      simp [Chan.joinChannel, hstart2]]
    refine ⟨by rw [hid], ?_, ?_⟩
    · exact length_alUpdate t _ m1.channels
    · rw [show alGet t (alUpdate t
          (fun c => ({ c with phxState := Chan.PhxState.joined } : Chan.PChannel))
          m1.channels) = (alGet t m1.channels).map
          (fun c => { c with phxState := Chan.PhxState.joined }) from
        alGet_alUpdate_self t _ m1.channels]
      rw [hch1]
      rfl
  · intro hres hlen
    obtain ⟨hsockj, ch, hch, hid, hj⟩ := joinChannel_ok_props t now1 m cid hres
    rw [joinChannel_already t now2 Chan.JoinAck.okA _ ch hsockj hlen hch hj, hid]
  · intro hnone hstart
    simp only [Chan.joinStart, hnone] at hstart
    split at hstart
    · exact Chan.StartResult.noConfusion hstart
    · split at hstart
      · exact Chan.StartResult.noConfusion hstart
      · injection hstart with h1 h2
        subst h1
        rw [show alGet t (alSet t
            ({ Chan.setupChannelHandlers (Chan.mkChannel m.nextId) with
                phxState := Chan.PhxState.joining } : Chan.PChannel) m.channels) =
          some ({ Chan.setupChannelHandlers (Chan.mkChannel m.nextId) with
                phxState := Chan.PhxState.joining } : Chan.PChannel) from
          alGet_alSet_self t _ m.channels]
        rfl

set_option maxRecDepth 4000 in
/-- C3 counterexample: with 50 channels open and topic "49" already
joined, a repeat `joinChannel("49")` rejects with the capacity error
instead of resolving to the existing handle, because the capacity check
runs before the idempotency check. -/
theorem c3_counterexample :
    fullMgr.channels.length = Chan.maxChannels ∧
    (alGet "49" fullMgr.channels).map Chan.PChannel.phxState =
      some Chan.PhxState.joined ∧
    (Chan.joinChannel "49" 1 Chan.JoinAck.okA fullMgr).res =
      Except.error Chan.Err.maxChannelsExceeded := by
  refine ⟨by decide, by decide, by rfl⟩

/-- Witness for C3 (amended) on concrete pending and joined states. -/
theorem c3_witness :
    (Chan.joinChannel "room:lobby" 1 Chan.JoinAck.okA pendingMgr).res = Except.ok 0 ∧
    Chan.joinChannel "room:lobby" 1 Chan.JoinAck.okA
        ((Chan.joinChannel "room:lobby" 0 Chan.JoinAck.okA Chan.initMgr).mgr) =
      ⟨(Chan.joinChannel "room:lobby" 0 Chan.JoinAck.okA Chan.initMgr).mgr,
        Except.ok 0, []⟩ ∧
    (alGet "room:lobby" pendingMgr.channels).map Chan.PChannel.installCount = some 1 :=
  ⟨((c3_join_idempotent Chan.initMgr pendingMgr "room:lobby" 0 0 1).1 rfl (by decide)).1,
    (c3_join_idempotent Chan.initMgr pendingMgr "room:lobby" 0 0 1).2.1 rfl (by decide),
    (c3_join_idempotent Chan.initMgr pendingMgr "room:lobby" 0 0 1).2.2 rfl rfl⟩

theorem waitLoop_elapsed_le (conn : Nat → Bool) :
    ∀ (f a : Nat), (Conn.waitLoop conn a f).2 ≤ (a + f) * 50 := by
  intro f
  induction f with
  | zero =>
    intro a
    simp [Conn.waitLoop]
  | succ f ih =>
    intro a
    simp only [Conn.waitLoop]
    by_cases h100 : 100 ≤ a + 1
    · simp only [h100, if_true]
      have : (a + 1 - 1) * 50 = a * 50 := by omega
      rw [this]
      have := Nat.mul_le_mul_right 50 (Nat.le_add_right a (f + 1))
      omega
    · rw [if_neg h100]
      by_cases hc : conn (a + 1) = true
      · simp only [hc, if_true]
        have : (a + 1 - 1) * 50 = a * 50 := by omega
        rw [this]
        have := Nat.mul_le_mul_right 50 (Nat.le_add_right a (f + 1))
        omega
      · simp only [hc, Bool.false_eq_true, if_false]
        have := ih (a + 1)
        have harith : (a + 1 + f) * 50 = (a + (f + 1)) * 50 := by ring_nf
        omega

theorem waitForConnection_elapsed_le (out : Conn.Outcome) :
    (Conn.waitForConnection out).2 ≤ 5000 := by
  have h := waitLoop_elapsed_le
    (fun a => match out with | .opensAtPoll k => k ≤ a | _ => false) 100 0
  simpa [Conn.waitForConnection] using h

set_option maxRecDepth 2000 in
theorem waitForConnection_never :
    Conn.waitForConnection Conn.Outcome.neverOpens =
      (Except.error Conn.CErr.checkLimitExceeded, 4950) := by
  rfl

theorem waitLoop_ok_of (k : Nat) (hk : k ≤ 99) :
    ∀ (f a : Nat), a + f = 100 → a < k →
      (Conn.waitLoop (fun x => decide (k ≤ x)) a f).1 = Except.ok () := by
  intro f
  induction f with
  | zero =>
    intro a hsum hak
    exact absurd hak (by omega)
  | succ f ih =>
    intro a hsum hak
    simp only [Conn.waitLoop]
    have h100 : ¬(100 ≤ a + 1) := by omega
    rw [if_neg h100]
    by_cases hc : k ≤ a + 1
    · simp [hc]
    · have hcb : ¬(decide (k ≤ a + 1) = true) := by simp [hc]
      rw [if_neg hcb]
      exact ih (a + 1) (by omega) (by omega)

theorem waitForConnection_opens_ok (k : Nat) (hk : k ≤ 99) :
    (Conn.waitForConnection (Conn.Outcome.opensAtPoll k)).1 = Except.ok () := by
  rcases Nat.eq_zero_or_pos k with hk0 | hk0
  · subst hk0
    rfl
  · exact waitLoop_ok_of k hk 100 0 rfl hk0

/-- C8: a connect attempt's wait for the transport is bounded by 10 s
(the polling loop in fact settles within 5 s, before the 10 s timer);
on failure — transport never reporting connected, or socket
construction throwing — the manager ends in the `error` status with
`reconnectAttempts` incremented by exactly one, emits the generic error
event and surfaces the error; on success `reconnectAttempts` resets
to 0 and the status is `connected`. -/
theorem c8_connect_timeout_and_attempts (m : Conn.Mgr) (p : Conn.CParams) (now : Nat)
    (hc : Conn.canConnect m = true) :
    (∀ (out : Conn.Outcome) (t : Nat),
      (Conn.connect p now out m).waitMs = some t → t ≤ 10000) ∧
    ((Conn.connect p now Conn.Outcome.neverOpens m).mgr.state.status =
        Conn.Status.errorSt ∧
      (Conn.connect p now Conn.Outcome.neverOpens m).mgr.state.reconnectAttempts =
        m.state.reconnectAttempts + 1 ∧
      (Conn.connect p now Conn.Outcome.neverOpens m).events = [Conn.Evt.errorEvt] ∧
      ∃ e, (Conn.connect p now Conn.Outcome.neverOpens m).res = Except.error e) ∧
    ((Conn.connect p now Conn.Outcome.constructThrows m).mgr.state.status =
        Conn.Status.errorSt ∧
      (Conn.connect p now Conn.Outcome.constructThrows m).mgr.state.reconnectAttempts =
        m.state.reconnectAttempts + 1 ∧
      (Conn.connect p now Conn.Outcome.constructThrows m).events = [Conn.Evt.errorEvt] ∧
      ∃ e, (Conn.connect p now Conn.Outcome.constructThrows m).res = Except.error e) ∧
    (∀ (k : Nat) (u : String), k ≤ 99 →
      Conn.buildSocketUrl (Conn.mergeConnectionParams p m.storedParams)
          m.cfgUrl m.envUrl = Except.ok u →
      (Conn.connect p now (Conn.Outcome.opensAtPoll k) m).res =
        Except.ok (some m.nextId) ∧
      (Conn.connect p now (Conn.Outcome.opensAtPoll k) m).mgr.state.reconnectAttempts =
        0 ∧
      (Conn.connect p now (Conn.Outcome.opensAtPoll k) m).mgr.state.status =
        Conn.Status.connected) := by
  refine ⟨?_, ?_, ?_, ?_⟩
  · intro out t ht
    simp only [Conn.connect, hc, Bool.true_eq_false, if_false] at ht
    rcases hurl : Conn.buildSocketUrl (Conn.mergeConnectionParams p m.storedParams)
        m.cfgUrl m.envUrl with e | u
    · rw [hurl] at ht
      exact Option.noConfusion ht
    · rw [hurl] at ht
      cases out with
      | constructThrows => exact Option.noConfusion ht
      | neverOpens =>
        rcases hw : Conn.waitForConnection Conn.Outcome.neverOpens with ⟨res, tv⟩
        rw [hw] at ht
        have hb := waitForConnection_elapsed_le Conn.Outcome.neverOpens
        rw [hw] at hb
        cases res <;> simp at ht <;> omega
      | opensAtPoll k =>
        rcases hw : Conn.waitForConnection (Conn.Outcome.opensAtPoll k) with ⟨res, tv⟩
        rw [hw] at ht
        have hb := waitForConnection_elapsed_le (Conn.Outcome.opensAtPoll k)
        rw [hw] at hb
        cases res <;> simp at ht <;> omega
  · simp only [Conn.connect, hc, Bool.true_eq_false, if_false]
    rcases hurl : Conn.buildSocketUrl (Conn.mergeConnectionParams p m.storedParams)
        m.cfgUrl m.envUrl with e | u
    · simp [Conn.handleConnectionError]
    · rw [waitForConnection_never]
      simp [Conn.handleConnectionError]
  · simp only [Conn.connect, hc, Bool.true_eq_false, if_false]
    rcases hurl : Conn.buildSocketUrl (Conn.mergeConnectionParams p m.storedParams)
        m.cfgUrl m.envUrl with e | u
    · simp [Conn.handleConnectionError]
    · simp [Conn.handleConnectionError]
  · intro k u hk hurl
    have hok := waitForConnection_opens_ok k hk
    rcases hw : Conn.waitForConnection (Conn.Outcome.opensAtPoll k) with ⟨res, tv⟩
    rw [hw] at hok
    subst hok
    simp only [Conn.connect, hc, Bool.true_eq_false, if_false, hurl, hw]
    simp

/-- Witness for C8 on a concrete disconnected manager. -/
theorem c8_witness :
    (Conn.connect { endpoint := some "wss://a", params := [] } 10
        Conn.Outcome.neverOpens discSample).mgr.state.reconnectAttempts = 4 ∧
    (Conn.connect { endpoint := some "wss://a", params := [] } 10
        (Conn.Outcome.opensAtPoll 1) discSample).mgr.state.reconnectAttempts = 0 ∧
    (∀ t, (Conn.connect { endpoint := some "wss://a", params := [] } 10
        Conn.Outcome.neverOpens discSample).waitMs = some t → t ≤ 10000) :=
  ⟨(c8_connect_timeout_and_attempts discSample
        { endpoint := some "wss://a", params := [] } 10 rfl).2.1.2.1,
    ((c8_connect_timeout_and_attempts discSample
        { endpoint := some "wss://a", params := [] } 10 rfl).2.2.2 1 "wss://a"
      (by decide) rfl).2.1,
    fun t => (c8_connect_timeout_and_attempts discSample
        { endpoint := some "wss://a", params := [] } 10 rfl).1
      Conn.Outcome.neverOpens t⟩

/-- C9: for a registered channel, adding the same callback twice for a
`(topic, event)` pair leaves exactly one registration in the listener
registry and exactly one additional transport binding (one invocation
per emitted message); and once the per-event cap of 10 is reached a
further registration is dropped: the registry and the transport
bindings are unchanged, so the dropped callback is never invoked. -/
theorem c9_listener_dedupe_and_cap (m : Chan.Mgr) (t e : String) (cb : Nat)
    (hch : (alGet t m.channels).isSome = true) :
    (cb ∉ Chan.eventListenersOf t e m →
      (Chan.eventListenersOf t e m).length < Chan.maxListenersPerEvent →
      (Chan.eventListenersOf t e
          (Chan.onMessage t e cb (Chan.onMessage t e cb m))).count cb = 1 ∧
      (Chan.deliveries t e (Chan.onMessage t e cb (Chan.onMessage t e cb m))).count cb =
        (Chan.deliveries t e m).count cb + 1) ∧
    (Chan.maxListenersPerEvent ≤ (Chan.eventListenersOf t e m).length →
      Chan.eventListenersOf t e (Chan.onMessage t e cb m) =
        Chan.eventListenersOf t e m ∧
      Chan.deliveries t e (Chan.onMessage t e cb m) = Chan.deliveries t e m) := by
  obtain ⟨ch, hchv⟩ := Option.isSome_iff_exists.mp hch
  constructor
  · intro hmem hlen
    simp only [Chan.eventListenersOf] at hmem hlen
    have hcapf : ¬(Chan.maxListenersPerEvent ≤
        ((alGet e ((alGet t m.messageListeners).getD [])).getD []).length) := by omega
    have hm1 : Chan.onMessage t e cb m =
        { m with
          messageListeners := alSet t
            (alSet e (((alGet e ((alGet t m.messageListeners).getD [])).getD []) ++ [cb])
              ((alGet t m.messageListeners).getD []))
            m.messageListeners,
          channels := alSet t
            ({ ch with bindings := ch.bindings ++ [(e, cb)] }) m.channels } := by
      simp only [Chan.onMessage, hchv, hcapf, if_false, hmem, if_false]
      rw [alSet_alSet]
    have htl1 : alGet t (Chan.onMessage t e cb m).messageListeners =
        some (alSet e (((alGet e ((alGet t m.messageListeners).getD [])).getD []) ++ [cb])
          ((alGet t m.messageListeners).getD [])) := by
      rw [hm1]
      exact alGet_alSet_self t _ m.messageListeners
    have hel1 : Chan.eventListenersOf t e (Chan.onMessage t e cb m) =
        ((alGet e ((alGet t m.messageListeners).getD [])).getD []) ++ [cb] := by
      simp only [Chan.eventListenersOf, htl1, Option.getD_some]
      rw [alGet_alSet_self]
      rfl
    have hch1 : alGet t (Chan.onMessage t e cb m).channels =
        some ({ ch with bindings := ch.bindings ++ [(e, cb)] }) := by
      rw [hm1]
      exact alGet_alSet_self t _ m.channels
    have hbase : ({ Chan.onMessage t e cb m with
        messageListeners := alSet t
          (alSet e ((alGet e ((alGet t (Chan.onMessage t e cb m).messageListeners).getD [])).getD [])
            ((alGet t (Chan.onMessage t e cb m).messageListeners).getD []))
          (Chan.onMessage t e cb m).messageListeners } : Chan.Mgr) =
        Chan.onMessage t e cb m := by
      rw [htl1]
      simp only [Option.getD_some, alGet_alSet_self]
      rw [alSet_same e _ _ (alGet_alSet_self e _ _)]
      rw [alSet_same t _ _ htl1]
    have hmem1 : cb ∈ (alGet e ((alGet t
        (Chan.onMessage t e cb m).messageListeners).getD [])).getD [] := by
      rw [htl1]
      simp only [Option.getD_some, alGet_alSet_self]
      simp
    have hm2 : Chan.onMessage t e cb (Chan.onMessage t e cb m) =
        Chan.onMessage t e cb m := by
      generalize hM : Chan.onMessage t e cb m = M1 at hch1 htl1 hbase hmem1 ⊢
      simp only [Chan.onMessage, hch1]
      by_cases hcap1 : Chan.maxListenersPerEvent ≤
          ((alGet e ((alGet t M1.messageListeners).getD [])).getD []).length
      · rw [if_pos hcap1]
        exact hbase
      · rw [if_neg hcap1, if_pos hmem1]
        exact hbase
    constructor
    · rw [hm2, hel1, List.count_append]
      rw [List.count_eq_zero.mpr hmem]
      simp
    · rw [hm2]
      have hdel : Chan.deliveries t e (Chan.onMessage t e cb m) =
          Chan.deliveries t e m ++ [cb] := by
        simp only [Chan.deliveries, hch1, hchv]
        rw [List.filter_append]
        simp
      rw [hdel, List.count_append]
      simp
  · intro hcap
    simp only [Chan.eventListenersOf] at hcap
    have hm1 : Chan.onMessage t e cb m =
        { m with
          messageListeners := alSet t
            (alSet e ((alGet e ((alGet t m.messageListeners).getD [])).getD [])
              ((alGet t m.messageListeners).getD []))
            m.messageListeners } := by
      simp only [Chan.onMessage, hchv, hcap, if_true]
    constructor
    · simp only [Chan.eventListenersOf, hm1]
      rw [alGet_alSet_self]
      simp only [Option.getD_some]
      rw [alGet_alSet_self]
      simp only [Option.getD_some]
    · rw [hm1]
      rfl

/-- Witness for C9: double registration of callback 7 on the joined
"room:a" channel invokes once; an 11th distinct callback at the cap is
dropped and never invoked. -/
theorem c9_witness :
    (Chan.eventListenersOf "room:a" "ev"
        (Chan.onMessage "room:a" "ev" 7 (Chan.onMessage "room:a" "ev" 7 joinedMgr))).count 7 = 1 ∧
    (Chan.deliveries "room:a" "ev"
        (Chan.onMessage "room:a" "ev" 7 (Chan.onMessage "room:a" "ev" 7 joinedMgr))).count 7 =
      (Chan.deliveries "room:a" "ev" joinedMgr).count 7 + 1 ∧
    Chan.eventListenersOf "room:a" "ev" (Chan.onMessage "room:a" "ev" 99 capListenerMgr) =
      Chan.eventListenersOf "room:a" "ev" capListenerMgr ∧
    Chan.deliveries "room:a" "ev" (Chan.onMessage "room:a" "ev" 99 capListenerMgr) =
      Chan.deliveries "room:a" "ev" capListenerMgr :=
  ⟨((c9_listener_dedupe_and_cap joinedMgr "room:a" "ev" 7 (by decide)).1
      (by decide) (by decide)).1,
    ((c9_listener_dedupe_and_cap joinedMgr "room:a" "ev" 7 (by decide)).1
      (by decide) (by decide)).2,
    ((c9_listener_dedupe_and_cap capListenerMgr "room:a" "ev" 99 (by decide)).2
      (by decide)).1,
    ((c9_listener_dedupe_and_cap capListenerMgr "room:a" "ev" 99 (by decide)).2
      (by decide)).2⟩
